import Mathlib

/-!
Shallow embedding of `ingest.py` (Sheffield COVID-19 dashboard scraper).

The pipeline is extract → validate → transform → export.  Cells extracted
from the HTML tree are `el.text` values, i.e. optional strings (`None` when
the element has no text), so raw rows are `List (Option String)`.  Python
exceptions are modelled by the `PyErr` type; the spec's `SchemaMismatch`
is the `AssertionError` raised by the `assert` statements in `validate`.
-/

/-- Python errors that the modelled code can raise.  `assertionError` is the
spec's SchemaMismatch; `dateParseError` is `dateutil.parser.ParserError`;
`numericParseError` is the `ValueError` raised by `int(...)`. -/
inductive PyErr where
  | indexError
  | typeError
  | attributeError
  | assertionError
  | dateParseError
  | numericParseError
  deriving DecidableEq, Repr

/-- `charsPre needle hay`: `needle` is a leading block of `hay`. -/
def charsPre : List Char → List Char → Bool
  | [], _ => true
  | _ :: _, [] => false
  | a :: as, b :: bs => a == b && charsPre as bs

/-- `charsSub needle hay`: `needle` occurs contiguously inside `hay`. -/
def charsSub (needle : List Char) : List Char → Bool
  | [] => needle.isEmpty
  | h :: t => charsPre needle (h :: t) || charsSub needle t

/-- Python's `needle in hay` on strings: substring containment. -/
def pyIn (needle hay : String) : Bool := charsSub needle.toList hay.toList

/-- One cell of `validate`'s list comprehension:
`cell_value[:-1] if cell_value.endswith('*') else cell_value` —
`endswith('*')` holds exactly when the last character is `'*'`, and
`[:-1]` drops the last character. -/
def stripCell (c : String) : String :=
  if c.toList.getLast? = some '*' then String.mk c.toList.dropLast else c

/-- The list comprehension of `validate` applied to a raw row.  A `None`
cell makes `cell_value.endswith('*')` raise `AttributeError`. -/
def stripRow : List (Option String) → Except PyErr (List String)
  | [] => .ok []
  | none :: _ => .error .attributeError
  | some c :: rest => do
      let cs ← stripRow rest
      .ok (stripCell c :: cs)

/-- `row[i]` on a raw row: `IndexError` when the index is out of range. -/
def cellAt : List (Option String) → Nat → Except PyErr (Option String)
  | [], _ => .error .indexError
  | c :: _, 0 => .ok c
  | _ :: t, n + 1 => cellAt t n

/-- Python's `needle in cell` when the cell is an optional string:
`x in None` raises `TypeError`. -/
def pyInOpt (needle : String) : Option String → Except PyErr Bool
  | none => .error .typeError
  | some s => .ok (pyIn needle s)

/-- The body of `validate`'s loop for one row: `some cells` is a cleaned
row to append, `none` means the row was a header row and is dropped. -/
def validateRow (row : List (Option String)) : Except PyErr (Option (List String)) := do
  let c0 ← cellAt row 0
  let isHdr ← pyInOpt "Day" c0
  if isHdr then do
    let c1 ← cellAt row 1
    let hasStaff ← pyInOpt "New staff" c1
    if hasStaff then do
      let c2 ← cellAt row 2
      let hasStudent ← pyInOpt "New student" c2
      if hasStudent then
        .ok none
      else
        .error .assertionError
    else
      .error .assertionError
  else do
    let cs ← stripRow row
    .ok (some cs)

/-- `validate(table)` from `ingest.py`: drop header rows (asserting their
labels), strip one trailing `*` from every cell of the other rows. -/
def validate : List (List (Option String)) → Except PyErr (List (List String))
  | [] => .ok []
  | row :: rest => do
      let r ← validateRow row
      let rs ← validate rest
      match r with
      | none => .ok rs
      | some cs => .ok (cs :: rs)

/-- A table-cell element of the parsed document: `extract` reads `el.text`,
which is absent when the element has no text. -/
structure Elem where
  text : Option String
  deriving DecidableEq, Repr

/-- `[el.text for el in row]`: the raw row `extract` builds from one
row element.  It never fails; a text-less cell becomes an absent value. -/
def extractRow (row : List Elem) : List (Option String) :=
  row.map (·.text)

/-- `extract(dom)` from `ingest.py`, applied to the row elements found by
`dom.findall(".//tr")`: it returns `[el.text for el in row]` for each row
and never fails. -/
def extract (rows : List (List Elem)) : List (List (Option String)) :=
  rows.map extractRow

/-- A base-10 digit character, `'0'`–`'9'`. -/
def isDig (c : Char) : Bool := 48 ≤ c.toNat && c.toNat ≤ 57

/-- Digits of a token, most significant first, as a number. -/
def digitsVal (cs : List Char) : Nat :=
  cs.foldl (fun a c => a * 10 + (c.toNat - 48)) 0

/-- Split a character list on single spaces (tokenisation of the date
strings that appear in the scraped table, e.g. `"12 Oct 2020"`). -/
def splitSp : List Char → List (List Char)
  | [] => [[]]
  | c :: rest =>
      let r := splitSp rest
      if c == ' ' then [] :: r
      else
        match r with
        | [] => [[c]]
        | w :: ws => (c :: w) :: ws

/-- Month names recognised by the date parser (case-insensitive). -/
def monthNum (cs : List Char) : Option Nat :=
  match String.mk (cs.map Char.toLower) with
  | "jan" | "january" => some 1
  | "feb" | "february" => some 2
  | "mar" | "march" => some 3
  | "apr" | "april" => some 4
  | "may" => some 5
  | "jun" | "june" => some 6
  | "jul" | "july" => some 7
  | "aug" | "august" => some 8
  | "sep" | "sept" | "september" => some 9
  | "oct" | "october" => some 10
  | "nov" | "november" => some 11
  | "dec" | "december" => some 12
  | _ => none

/-- Gregorian leap-year rule (as `datetime.date` uses). -/
def pyLeap (y : Nat) : Bool := y % 4 == 0 && (y % 100 != 0 || y % 400 == 0)

/-- Length of a month, as `datetime.date` validates it. -/
def daysInMonth (y m : Nat) : Nat :=
  if m = 2 then (if pyLeap y then 29 else 28)
  else if m = 4 ∨ m = 6 ∨ m = 9 ∨ m = 11 then 30
  else 31

/-- Modelled from the spec: the day/month-name/year reading of a
tokenised date — a 1–2 digit day, a month name, and a 4-digit year making
a valid calendar date. -/
def parseDMY (dT mT yT : List Char) : Except PyErr (Nat × Nat × Nat) :=
  if dT.length = 0 ∨ 2 < dT.length ∨ ¬ dT.all isDig then .error .dateParseError
  else match monthNum mT with
    | none => .error .dateParseError
    | some m =>
        if yT.length = 4 ∧ yT.all isDig then
          if 1 ≤ digitsVal yT ∧ 1 ≤ digitsVal dT ∧
              digitsVal dT ≤ daysInMonth (digitsVal yT) m then
            .ok (digitsVal yT, m, digitsVal dT)
          else .error .dateParseError
        else .error .dateParseError

/-- Modelled from the spec: `dateutil.parser.parse`, the "tolerant free-form
date parser" of the Transformer, is an external library; it is modelled here
on the date format the scraped table uses, `"<day> <month name> <year>"`
(e.g. `"12 Oct 2020"`).  Every other string is mapped to
`dateParseError`. -/
def dateutilParse (s : String) : Except PyErr (Nat × Nat × Nat) :=
  match splitSp s.toList with
  | [dT, mT, yT] => parseDMY dT mT yT
  | _ => .error .dateParseError

/-- Surrounding whitespace removed, as `int(x)` tolerates. -/
def trimChars (cs : List Char) : List Char :=
  ((cs.dropWhile Char.isWhitespace).reverse.dropWhile Char.isWhitespace).reverse

/-- Python's `int(x)`: optional surrounding whitespace, optional sign,
then at least one base-10 digit; otherwise `ValueError`
(`numericParseError`). -/
def pyInt (s : String) : Except PyErr Int :=
  match trimChars s.toList with
  | '-' :: rest =>
      if rest ≠ [] ∧ rest.all isDig then .ok (-(digitsVal rest : Int))
      else .error .numericParseError
  | '+' :: rest =>
      if rest ≠ [] ∧ rest.all isDig then .ok (digitsVal rest : Int)
      else .error .numericParseError
  | rest =>
      if rest ≠ [] ∧ rest.all isDig then .ok (digitsVal rest : Int)
      else .error .numericParseError

/-- A typed cell of a transformed row: the ISO date string in cell 0,
integers in the later cells (a Python `list` mixing `str` and `int`). -/
inductive Cell where
  | s (v : String)
  | i (v : Int)
  deriving DecidableEq, Repr

/-- Zero-padded decimal digits of `n`, `w` places, most significant first
(how `datetime.date.__str__` renders each field). -/
def padNum : Nat → Nat → List Char
  | 0, _ => []
  | w + 1, n => Nat.digitChar (n / 10 ^ w) :: padNum w (n % 10 ^ w)

/-- Characters of `str(datetime.date(y, m, d))`, i.e. `YYYY-MM-DD`. -/
def isoChars (y m d : Nat) : List Char :=
  padNum 4 y ++ '-' :: (padNum 2 m ++ '-' :: padNum 2 d)

/-- `str(dateutil.parser.parse(...).date())`: the ISO-8601 rendering. -/
def isoRender (y m d : Nat) : String := String.mk (isoChars y m d)

/-- Lexicographic order on character lists by code point — Python's `<`
on strings. -/
def charsLt : List Char → List Char → Bool
  | _, [] => false
  | [], _ :: _ => true
  | a :: as, b :: bs =>
      if a < b then true
      else if b < a then false
      else charsLt as bs

/-- Python's `<` on the cells of transformed rows.  Cell 0 of every
transformed row is a string and every later cell is an `int`, so `<` only
ever compares two strings or two ints there; on a string/int pair Python
would raise `TypeError`, a case no reachable comparison hits, and the
order is extended arbitrarily (ints first) to stay total. -/
def cellLt : Cell → Cell → Bool
  | .i a, .i b => decide (a < b)
  | .i _, .s _ => true
  | .s _, .i _ => false
  | .s a, .s b => charsLt a.toList b.toList

/-- Python's `<` on rows (list lexicographic order). -/
def rowLt : List Cell → List Cell → Bool
  | _, [] => false
  | [], _ :: _ => true
  | a :: as, b :: bs =>
      if cellLt a b then true
      else if cellLt b a then false
      else rowLt as bs

/-- The non-strict order `sorted` leaves the rows in: `rowLe a b` iff `b`
is not below `a`. -/
def rowLe (a b : List Cell) : Bool := !(rowLt b a)

/-- `rowLe` as a relation, for the sort. -/
def rowLeR (a b : List Cell) : Prop := rowLe a b = true

instance : DecidableRel rowLeR := fun a b => by
  unfold rowLeR; infer_instance

/-- `int(x) for x in row[1:]`, consumed left to right by `out.extend`. -/
def intsOf : List String → Except PyErr (List Int)
  | [] => .ok []
  | c :: rest => do
      let v ← pyInt c
      let vs ← intsOf rest
      .ok (v :: vs)

/-- The body of `transform`'s loop for one row: parse `row[0]` as a date
(IndexError when the row is empty), render it ISO, convert the remaining
cells with `int`. -/
def transformRow (row : List String) : Except PyErr (List Cell) :=
  match row with
  | [] => .error .indexError
  | c0 :: rest => do
      let ymd ← dateutilParse c0
      let vs ← intsOf rest
      .ok (Cell.s (isoRender ymd.1 ymd.2.1 ymd.2.2) :: vs.map Cell.i)

/-- The accumulation loop of `transform`, before sorting. -/
def transformRows : List (List String) → Except PyErr (List (List Cell))
  | [] => .ok []
  | row :: rest => do
      let r ← transformRow row
      let rs ← transformRows rest
      .ok (r :: rs)

/-- `transform(rows)` from `ingest.py`: per-row typing then `sorted(result)`.
Python's sort is stable, but the row order is antisymmetric up to equality
on every reachable result list, so any sorted permutation is the same. -/
def transform (rows : List (List String)) : Except PyErr (List (List Cell)) := do
  let result ← transformRows rows
  .ok (List.insertionSort rowLeR result)

/-- JSON values (the shape `json.dumps` / a JSON parser exchange). -/
inductive Json where
  | str (v : String)
  | num (v : Int)
  | arr (xs : List Json)

/-- Serialisation of one cell. -/
def cellToJson : Cell → Json
  | .s v => .str v
  | .i v => .num v

/-- `json.dumps(data)`: the dataset as a bare array of arrays, each inner
array a date string followed by integers, with no wrapping object. -/
def dataToJson (data : List (List Cell)) : Json :=
  .arr (data.map (fun row => .arr (row.map cellToJson)))

/-- Re-parsing one serialised cell. -/
def cellFromJson : Json → Option Cell
  | .str v => some (.s v)
  | .num v => some (.i v)
  | .arr _ => none

/-- Re-parsing a list of serialised cells. -/
def cellsFromJson : List Json → Option (List Cell)
  | [] => some []
  | x :: xs => do
      let c ← cellFromJson x
      let cs ← cellsFromJson xs
      some (c :: cs)

/-- Re-parsing one serialised row. -/
def rowFromJson : Json → Option (List Cell)
  | .arr xs => cellsFromJson xs
  | _ => none

/-- Re-parsing a list of serialised rows. -/
def rowsFromJson : List Json → Option (List (List Cell))
  | [] => some []
  | x :: xs => do
      let r ← rowFromJson x
      let rs ← rowsFromJson xs
      some (r :: rs)

/-- Re-parsing the serialised dataset. -/
def dataFromJson : Json → Option (List (List Cell))
  | .arr xs => rowsFromJson xs
  | _ => none

/-- `str(value)` as `csv.writer` renders each cell. -/
def cellStr : Cell → String
  | .s v => v
  | .i v => toString v

/-- The rows the CSV export writes: the fixed header row, then one row per
typed row. -/
def csvRows (data : List (List Cell)) : List (List String) :=
  ["Date", "New staff cases", "New student cases"] :: data.map (List.map cellStr)

/-- What `main`'s export branch produces. -/
inductive ExportResult where
  | csvFile (path : String) (rows : List (List String))
  | jsonFile (path : String) (content : Json)
  | noExport

/-- The export branch of `main`: `if args.csv_file is not None: ... elif
args.json_file is not None: ... ` — CSV wins when both flags are given,
nothing is written when neither is. -/
def exportData (csvFile jsonFile : Option String) (data : List (List Cell)) :
    ExportResult :=
  match csvFile with
  | some p => .csvFile p (csvRows data)
  | none =>
      match jsonFile with
      | some p => .jsonFile p (dataToJson data)
      | none => .noExport

/-- Did the modelled Python code return normally? -/
def isOkB {ε α : Type} : Except ε α → Bool
  | .ok _ => true
  | .error _ => false

instance {ε α : Type} [DecidableEq ε] [DecidableEq α] : DecidableEq (Except ε α) := fun x y =>
  match x, y with
  | .ok a, .ok b =>
      if h : a = b then .isTrue (by rw [h])
      else .isFalse (fun hc => by injection hc; contradiction)
  | .ok _, .error _ => .isFalse (fun hc => by injection hc)
  | .error _, .ok _ => .isFalse (fun hc => by injection hc)
  | .error a, .error b =>
      if h : a = b then .isTrue (by rw [h])
      else .isFalse (fun hc => by injection hc; contradiction)

/-- The calendar number of an ISO-8601 `YYYY-MM-DD` string (digits read in
order, separators ignored): two such strings compare chronologically
exactly when these numbers do. -/
def isoKey (s : String) : Nat :=
  s.toList.foldl (fun a c => if isDig c then a * 10 + (c.toNat - 48) else a) 0

/-- The date cell of a transformed row. -/
def rowDate : List Cell → String
  | Cell.s v :: _ => v
  | _ => ""

/-- A transformed row as `transform` builds it: an ISO date string from a
valid calendar date, then integer cells. -/
def wellTypedRow (row : List Cell) : Prop :=
  ∃ y m d ints, 1 ≤ y ∧ y ≤ 9999 ∧ 1 ≤ m ∧ m ≤ 12 ∧ 1 ≤ d ∧ d ≤ 31 ∧
    row = Cell.s (isoRender y m d) :: List.map Cell.i ints

/-- A well-formed header row: at least three cells, carrying the header
marker and both expected labels. -/
def wfHeaderB (row : List String) : Bool :=
  decide (3 ≤ row.length) && pyIn "Day" (row.getD 0 "") &&
    pyIn "New staff" (row.getD 1 "") && pyIn "New student" (row.getD 2 "")

/-- A data row: nonempty, and cell 0 free of the header marker. -/
def dataRowB (row : List String) : Bool :=
  !row.isEmpty && !(pyIn "Day" (row.getD 0 ""))

/-- A raw row whose first three cells are present and carry the header
marker and both expected labels — the rows `validate` drops without
looking at any later cell. -/
def goodHeaderOptB : List (Option String) → Bool
  | some a :: some b :: some c :: _ =>
      pyIn "Day" a && pyIn "New staff" b && pyIn "New student" c
  | _ => false

/-- The failure condition the spec states for the Transformer on one row:
cell 0 does not parse as a date, or a later cell does not parse as an
integer. -/
def rowParseFails : List String → Bool
  | [] => false
  | c0 :: rest => !(isOkB (dateutilParse c0)) || rest.any (fun c => !(isOkB (pyInt c)))

theorem charsLt_asymm : ∀ a b : List Char, charsLt a b = true → charsLt b a = false
  | _, [], h => by simp [charsLt] at h
  | [], _ :: _, _ => by simp [charsLt]
  | x :: xs, y :: ys, h => by
      simp only [charsLt] at h ⊢
      rcases lt_trichotomy x y with hxy | hxy | hxy
      · rw [if_neg (lt_asymm hxy), if_pos hxy]
      · subst hxy
        rw [if_neg (lt_irrefl x), if_neg (lt_irrefl x)] at h ⊢
        exact charsLt_asymm xs ys h
      · rw [if_neg (lt_asymm hxy), if_pos hxy] at h
        exact absurd h (by simp)

theorem charsLt_trans : ∀ a b c : List Char,
    charsLt a b = true → charsLt b c = true → charsLt a c = true
  | _, _, [], _, h2 => by simp [charsLt] at h2
  | _, [], _ :: _, h1, _ => by simp [charsLt] at h1
  | [], _ :: _, _ :: _, _, _ => by simp [charsLt]
  | x :: xs, y :: ys, z :: zs, h1, h2 => by
      simp only [charsLt] at h1 h2 ⊢
      rcases lt_trichotomy x y with hxy | hxy | hxy
      · rcases lt_trichotomy y z with hyz | hyz | hyz
        · rw [if_pos (lt_trans hxy hyz)]
        · subst hyz; rw [if_pos hxy]
        · rw [if_neg (lt_asymm hyz), if_pos hyz] at h2
          exact absurd h2 (by simp)
      · subst hxy
        rcases lt_trichotomy x z with hxz | hxz | hxz
        · rw [if_pos hxz]
        · subst hxz
          rw [if_neg (lt_irrefl x)] at h1 h2 ⊢
          rw [if_neg (lt_irrefl x)] at h1 h2 ⊢
          exact charsLt_trans xs ys zs h1 h2
        · rw [if_neg (lt_asymm hxz), if_pos hxz] at h2
          exact absurd h2 (by simp)
      · rw [if_neg (lt_asymm hxy), if_pos hxy] at h1
        exact absurd h1 (by simp)

theorem charsLt_connex : ∀ a b : List Char,
    charsLt a b = false → charsLt b a = false → a = b
  | [], [], _, _ => rfl
  | [], _ :: _, h1, _ => by simp [charsLt] at h1
  | _ :: _, [], _, h2 => by simp [charsLt] at h2
  | x :: xs, y :: ys, h1, h2 => by
      simp only [charsLt] at h1 h2
      rcases lt_trichotomy x y with hxy | hxy | hxy
      · rw [if_pos hxy] at h1; exact absurd h1 (by simp)
      · subst hxy
        rw [if_neg (lt_irrefl x), if_neg (lt_irrefl x)] at h1 h2
        rw [charsLt_connex xs ys h1 h2]
      · rw [if_neg (lt_asymm hxy), if_pos hxy] at h2
        exact absurd h2 (by simp)

theorem cellLt_asymm : ∀ a b : Cell, cellLt a b = true → cellLt b a = false
  | .i a, .i b, h => by
      simp only [cellLt, decide_eq_true_eq] at h
      simp [cellLt, not_lt.mpr (le_of_lt h)]
  | .i _, .s _, _ => by simp [cellLt]
  | .s _, .i _, h => by simp [cellLt] at h
  | .s a, .s b, h => by
      simpa [cellLt] using charsLt_asymm _ _ (by simpa [cellLt] using h)

theorem cellLt_trans : ∀ a b c : Cell,
    cellLt a b = true → cellLt b c = true → cellLt a c = true
  | .i _, .i _, .i _, h1, h2 => by
      simp only [cellLt, decide_eq_true_eq] at h1 h2 ⊢
      exact lt_trans h1 h2
  | .i _, _, .s _, _, _ => by simp [cellLt]
  | .i _, .s _, .i _, _, h2 => by simp [cellLt] at h2
  | .s _, .i _, _, h1, _ => by simp [cellLt] at h1
  | .s _, .s _, .i _, _, h2 => by simp [cellLt] at h2
  | .s a, .s b, .s c, h1, h2 => by
      simp only [cellLt] at h1 h2 ⊢
      exact charsLt_trans _ _ _ h1 h2

theorem cellLt_connex : ∀ a b : Cell, cellLt a b = false → cellLt b a = false → a = b
  | .i _, .i _, h1, h2 => by
      simp only [cellLt, decide_eq_false_iff_not, not_lt] at h1 h2
      exact congrArg Cell.i (le_antisymm h2 h1)
  | .i _, .s _, h1, _ => by simp [cellLt] at h1
  | .s _, .i _, _, h2 => by simp [cellLt] at h2
  | .s a, .s b, h1, h2 => by
      simp only [cellLt] at h1 h2
      have : a.toList = b.toList := charsLt_connex _ _ h1 h2
      have : a.data = b.data := this
      cases a; cases b; simp_all

theorem rowLt_asymm : ∀ a b : List Cell, rowLt a b = true → rowLt b a = false
  | _, [], h => by simp [rowLt] at h
  | [], _ :: _, _ => by simp [rowLt]
  | x :: xs, y :: ys, h => by
      simp only [rowLt] at h ⊢
      by_cases hxy : cellLt x y = true
      · rw [if_neg (by simp [cellLt_asymm _ _ hxy]), if_pos hxy]
      · rw [if_neg hxy] at h
        by_cases hyx : cellLt y x = true
        · rw [if_pos hyx] at h; exact absurd h (by simp)
        · rw [if_neg hyx] at h ⊢
          rw [if_neg hxy]
          exact rowLt_asymm xs ys h

theorem rowLt_trans : ∀ a b c : List Cell,
    rowLt a b = true → rowLt b c = true → rowLt a c = true
  | _, _, [], _, h2 => by simp [rowLt] at h2
  | _, [], _ :: _, h1, _ => by simp [rowLt] at h1
  | [], _ :: _, _ :: _, _, _ => by simp [rowLt]
  | x :: xs, y :: ys, z :: zs, h1, h2 => by
      simp only [rowLt] at h1 h2 ⊢
      by_cases hxy : cellLt x y = true
      · by_cases hyz : cellLt y z = true
        · rw [if_pos (cellLt_trans _ _ _ hxy hyz)]
        · rw [if_neg hyz] at h2
          by_cases hzy : cellLt z y = true
          · rw [if_pos hzy] at h2; exact absurd h2 (by simp)
          · have := cellLt_connex y z (by simpa using hyz) (by simpa using hzy)
            subst this; rw [if_pos hxy]
      · rw [if_neg hxy] at h1
        by_cases hyx : cellLt y x = true
        · rw [if_pos hyx] at h1; exact absurd h1 (by simp)
        · rw [if_neg hyx] at h1
          have hxyeq := cellLt_connex x y (by simpa using hxy) (by simpa using hyx)
          subst hxyeq
          by_cases hxz : cellLt x z = true
          · rw [if_pos hxz]
          · rw [if_neg hxz] at h2 ⊢
            by_cases hzx : cellLt z x = true
            · rw [if_pos hzx] at h2; exact absurd h2 (by simp)
            · rw [if_neg hzx] at h2 ⊢
              exact rowLt_trans xs ys zs h1 h2

theorem rowLt_connex : ∀ a b : List Cell, rowLt a b = false → rowLt b a = false → a = b
  | [], [], _, _ => rfl
  | [], _ :: _, h1, _ => by simp [rowLt] at h1
  | _ :: _, [], _, h2 => by simp [rowLt] at h2
  | x :: xs, y :: ys, h1, h2 => by
      simp only [rowLt] at h1 h2
      by_cases hxy : cellLt x y = true
      · rw [if_pos hxy] at h1; exact absurd h1 (by simp)
      · by_cases hyx : cellLt y x = true
        · rw [if_pos hyx] at h2; exact absurd h2 (by simp)
        · rw [if_neg hxy, if_neg hyx] at h1
          rw [if_neg hyx, if_neg hxy] at h2
          rw [cellLt_connex x y (by simpa using hxy) (by simpa using hyx),
            rowLt_connex xs ys h1 h2]

instance : IsTotal (List Cell) rowLeR where
  total a b := by
    unfold rowLeR rowLe
    by_cases h : rowLt b a = true
    · right; simp [rowLt_asymm _ _ h]
    · left; simp [Bool.not_eq_true] at h; simp [h]

instance : IsTrans (List Cell) rowLeR where
  trans a b c h1 h2 := by
    unfold rowLeR rowLe at h1 h2 ⊢
    simp only [Bool.not_eq_true'] at h1 h2 ⊢
    by_cases hca : rowLt c a = true
    · by_cases hba : rowLt b a = true
      · simp [hba] at h1
      · by_cases hab : rowLt a b = true
        · have := rowLt_trans c a b hca hab
          simp [this] at h2
        · have := rowLt_connex a b (by simpa using hab) (by simpa using hba)
          subst this
          simp [hca] at h2
    · simpa using hca

theorem charsLt_irrefl (a : List Char) : charsLt a a = false := by
  by_cases h : charsLt a a = true
  · have := charsLt_asymm a a h
    rw [this] at h
    exact absurd h (by simp)
  · simpa using h

theorem digitChar_lt_iff : ∀ a < 10, ∀ b < 10,
    (Nat.digitChar a < Nat.digitChar b ↔ a < b) := by decide

theorem digitChar_inj : ∀ a < 10, ∀ b < 10,
    (Nat.digitChar a = Nat.digitChar b ↔ a = b) := by decide

theorem digitChar_isDig : ∀ a < 10,
    isDig (Nat.digitChar a) = true ∧ (Nat.digitChar a).toNat - 48 = a := by decide

theorem padNum_length : ∀ w n, (padNum w n).length = w
  | 0, _ => rfl
  | w + 1, n => by simp [padNum, padNum_length w]

theorem divmod_lt_iff (q n n' : Nat) (_hq : 0 < q) :
    n < n' ↔ (n / q < n' / q ∨ (n / q = n' / q ∧ n % q < n' % q)) := by
  constructor
  · intro h
    rcases lt_trichotomy (n / q) (n' / q) with h1 | h1 | h1
    · exact Or.inl h1
    · refine Or.inr ⟨h1, ?_⟩
      have e1 := Nat.div_add_mod n q
      have e2 := Nat.div_add_mod n' q
      rw [h1] at e1
      omega
    · exact absurd (Nat.lt_of_div_lt_div h1) (by omega)
  · intro h
    rcases h with h1 | ⟨h1, h2⟩
    · rcases lt_trichotomy n n' with h | h | h
      · exact h
      · subst h; omega
      · exact absurd (by omega : n' ≤ n) (by
          intro _
          have := Nat.div_le_div_right (c := q) (le_of_lt h)
          omega)
    · have e1 := Nat.div_add_mod n q
      have e2 := Nat.div_add_mod n' q
      rw [h1] at e1
      omega

theorem padNum_lt_iff : ∀ w n n', n < 10 ^ w → n' < 10 ^ w →
    (charsLt (padNum w n) (padNum w n') = true ↔ n < n') := by
  intro w
  induction w with
  | zero =>
      intro n n' hn hn'
      simp only [pow_zero, Nat.lt_one_iff] at hn hn'
      subst hn; subst hn'
      simp [padNum, charsLt]
  | succ w ih =>
      intro n n' hn hn'
      have hp : (0 : Nat) < 10 ^ w := Nat.pos_pow_of_pos w (by omega)
      have hd : n / 10 ^ w < 10 := by
        rw [Nat.div_lt_iff_lt_mul hp]
        calc n < 10 ^ (w + 1) := hn
          _ = 10 * 10 ^ w := by ring
      have hd' : n' / 10 ^ w < 10 := by
        rw [Nat.div_lt_iff_lt_mul hp]
        calc n' < 10 ^ (w + 1) := hn'
          _ = 10 * 10 ^ w := by ring
      have hm : n % 10 ^ w < 10 ^ w := Nat.mod_lt _ hp
      have hm' : n' % 10 ^ w < 10 ^ w := Nat.mod_lt _ hp
      simp only [padNum, charsLt]
      rcases lt_trichotomy (n / 10 ^ w) (n' / 10 ^ w) with h1 | h1 | h1
      · rw [if_pos ((digitChar_lt_iff _ hd _ hd').mpr h1)]
        simp [(divmod_lt_iff (10 ^ w) n n' hp).mpr (Or.inl h1)]
      · have he : Nat.digitChar (n / 10 ^ w) = Nat.digitChar (n' / 10 ^ w) := by
          rw [h1]
        rw [if_neg (by rw [he]; exact lt_irrefl _), if_neg (by rw [he]; exact lt_irrefl _)]
        rw [ih _ _ hm hm']
        constructor
        · intro h; exact (divmod_lt_iff (10 ^ w) n n' hp).mpr (Or.inr ⟨h1, h⟩)
        · intro h
          rcases (divmod_lt_iff (10 ^ w) n n' hp).mp h with h2 | ⟨_, h2⟩
          · omega
          · exact h2
      · have hlt := (digitChar_lt_iff _ hd' _ hd).mpr h1
        rw [if_neg (lt_asymm hlt), if_pos hlt]
        have : ¬ n < n' := by
          intro h
          rcases (divmod_lt_iff (10 ^ w) n n' hp).mp h with h2 | ⟨h2, _⟩ <;> omega
        simp [this]

theorem padNum_eq_iff (w n n' : Nat) (hn : n < 10 ^ w) (hn' : n' < 10 ^ w) :
    padNum w n = padNum w n' ↔ n = n' := by
  constructor
  · intro h
    rcases lt_trichotomy n n' with h1 | h1 | h1
    · have := (padNum_lt_iff w n n' hn hn').mpr h1
      rw [h] at this
      rw [charsLt_irrefl] at this
      exact absurd this (by simp)
    · exact h1
    · have := (padNum_lt_iff w n' n hn' hn).mpr h1
      rw [h] at this
      rw [charsLt_irrefl] at this
      exact absurd this (by simp)
  · intro h; rw [h]

theorem charsLt_append : ∀ xs ys as bs : List Char, xs.length = ys.length →
    charsLt (xs ++ as) (ys ++ bs) =
      (if charsLt xs ys = true then true
       else if charsLt ys xs = true then false
       else charsLt as bs)
  | [], [], as, bs, _ => by simp [charsLt]
  | [], _ :: _, _, _, h => by simp at h
  | _ :: _, [], _, _, h => by simp at h
  | x :: xs, y :: ys, as, bs, h => by
      simp only [List.length_cons, Nat.succ.injEq] at h
      rcases lt_trichotomy x y with hxy | hxy | hxy
      · simp only [List.cons_append, charsLt, if_pos hxy]
        simp
      · subst hxy
        simp only [List.cons_append, charsLt, if_neg (lt_irrefl x)]
        exact charsLt_append xs ys as bs h
      · simp only [List.cons_append, charsLt, if_neg (lt_asymm hxy), if_pos hxy]
        simp

theorem charsLt_cons_same (c : Char) (as bs : List Char) :
    charsLt (c :: as) (c :: bs) = charsLt as bs := by
  simp only [charsLt, if_neg (lt_irrefl c)]

theorem isoChars_lt_iff (y1 m1 d1 y2 m2 d2 : Nat)
    (hy1 : y1 < 10000) (hy2 : y2 < 10000) (hm1 : m1 < 100) (hm2 : m2 < 100)
    (hd1 : d1 < 100) (hd2 : d2 < 100) :
    (charsLt (isoChars y1 m1 d1) (isoChars y2 m2 d2) = true ↔
      (y1 < y2 ∨ (y1 = y2 ∧ (m1 < m2 ∨ (m1 = m2 ∧ d1 < d2))))) := by
  have hy1' : y1 < 10 ^ 4 := by norm_num; omega
  have hy2' : y2 < 10 ^ 4 := by norm_num; omega
  have hm1' : m1 < 10 ^ 2 := by norm_num; omega
  have hm2' : m2 < 10 ^ 2 := by norm_num; omega
  have hd1' : d1 < 10 ^ 2 := by norm_num; omega
  have hd2' : d2 < 10 ^ 2 := by norm_num; omega
  unfold isoChars
  rw [charsLt_append _ _ _ _ (by rw [padNum_length, padNum_length])]
  rcases lt_trichotomy y1 y2 with hy | hy | hy
  · rw [if_pos ((padNum_lt_iff 4 y1 y2 hy1' hy2').mpr hy)]
    simp [hy]
  · subst hy
    rw [if_neg (by rw [charsLt_irrefl]; simp), if_neg (by rw [charsLt_irrefl]; simp)]
    rw [charsLt_cons_same]
    rw [charsLt_append _ _ _ _ (by rw [padNum_length, padNum_length])]
    rcases lt_trichotomy m1 m2 with hm | hm | hm
    · rw [if_pos ((padNum_lt_iff 2 m1 m2 hm1' hm2').mpr hm)]
      simp [hm]
    · subst hm
      rw [if_neg (by rw [charsLt_irrefl]; simp), if_neg (by rw [charsLt_irrefl]; simp)]
      rw [charsLt_cons_same]
      rw [padNum_lt_iff 2 d1 d2 hd1' hd2']
      omega
    · have hlt := (padNum_lt_iff 2 m2 m1 hm2' hm1').mpr hm
      have hnlt : charsLt (padNum 2 m1) (padNum 2 m2) = false := charsLt_asymm _ _ hlt
      rw [if_neg (by rw [hnlt]; simp), if_pos hlt]
      simp
      omega
  · have hlt := (padNum_lt_iff 4 y2 y1 hy2' hy1').mpr hy
    have hnlt : charsLt (padNum 4 y1) (padNum 4 y2) = false := charsLt_asymm _ _ hlt
    rw [if_neg (by rw [hnlt]; simp), if_pos hlt]
    simp
    omega

theorem foldl_digits_padNum : ∀ w n acc, n < 10 ^ w →
    (padNum w n).foldl (fun a c => if isDig c then a * 10 + (c.toNat - 48) else a) acc
      = acc * 10 ^ w + n := by
  intro w
  induction w with
  | zero =>
      intro n acc hn
      simp only [pow_zero, Nat.lt_one_iff] at hn
      subst hn
      simp [padNum]
  | succ w ih =>
      intro n acc hn
      have hp : (0 : Nat) < 10 ^ w := Nat.pos_pow_of_pos w (by omega)
      have hd : n / 10 ^ w < 10 := by
        rw [Nat.div_lt_iff_lt_mul hp]
        calc n < 10 ^ (w + 1) := hn
          _ = 10 * 10 ^ w := by ring
      have hm : n % 10 ^ w < 10 ^ w := Nat.mod_lt _ hp
      obtain ⟨hdig, hval⟩ := digitChar_isDig _ hd
      simp only [padNum, List.foldl_cons, hdig, if_pos, hval]
      rw [ih _ _ hm]
      have e := Nat.div_add_mod n (10 ^ w)
      calc (acc * 10 + n / 10 ^ w) * 10 ^ w + n % 10 ^ w
          = acc * (10 ^ w * 10) + (10 ^ w * (n / 10 ^ w) + n % 10 ^ w) := by ring
        _ = acc * 10 ^ (w + 1) + n := by rw [e]; ring

theorem isoKey_isoRender (y m d : Nat) (hy : y < 10000) (hm : m < 100) (hd : d < 100) :
    isoKey (isoRender y m d) = (y * 100 + m) * 100 + d := by
  have hy' : y < 10 ^ 4 := by norm_num; omega
  have hm' : m < 10 ^ 2 := by norm_num; omega
  have hd' : d < 10 ^ 2 := by norm_num; omega
  have hdash : isDig '-' = false := by decide
  show (isoChars y m d).foldl _ 0 = _
  unfold isoChars
  rw [List.foldl_append, foldl_digits_padNum 4 y 0 hy']
  simp only [List.foldl_cons, hdash, if_neg, Bool.false_eq_true, not_false_iff]
  rw [List.foldl_append, foldl_digits_padNum 2 m _ hm']
  simp only [List.foldl_cons, hdash, if_neg, Bool.false_eq_true, not_false_iff]
  rw [foldl_digits_padNum 2 d _ hd']
  norm_num

theorem foldl_digitsVal_lt : ∀ cs : List Char, ∀ acc, cs.all isDig = true →
    cs.foldl (fun a c => a * 10 + (c.toNat - 48)) acc < (acc + 1) * 10 ^ cs.length := by
  intro cs
  induction cs with
  | nil => intro acc _; simp
  | cons c cs ih =>
      intro acc hall
      simp only [List.all_cons, Bool.and_eq_true] at hall
      obtain ⟨hc, hcs⟩ := hall
      have hv : c.toNat - 48 ≤ 9 := by
        simp only [isDig, Bool.and_eq_true, decide_eq_true_eq] at hc
        omega
      simp only [List.foldl_cons, List.length_cons]
      calc cs.foldl (fun a c => a * 10 + (c.toNat - 48)) (acc * 10 + (c.toNat - 48))
          < (acc * 10 + (c.toNat - 48) + 1) * 10 ^ cs.length := ih _ hcs
        _ ≤ ((acc + 1) * 10) * 10 ^ cs.length := by
            have : acc * 10 + (c.toNat - 48) + 1 ≤ (acc + 1) * 10 := by omega
            exact Nat.mul_le_mul_right _ this
        _ = (acc + 1) * 10 ^ (cs.length + 1) := by ring

theorem digitsVal_lt (cs : List Char) (h : cs.all isDig = true) :
    digitsVal cs < 10 ^ cs.length := by
  have := foldl_digitsVal_lt cs 0 h
  simpa [digitsVal] using this

theorem monthNum_bounds (cs : List Char) (m : Nat) (h : monthNum cs = some m) :
    1 ≤ m ∧ m ≤ 12 := by
  unfold monthNum at h
  split at h <;> first
    | (injection h with h; omega)
    | exact absurd h (by simp)

theorem daysInMonth_le (y m : Nat) : daysInMonth y m ≤ 31 := by
  unfold daysInMonth
  split_ifs <;> omega

theorem parseDMY_bounds (dT mT yT : List Char) (y m d : Nat)
    (h : parseDMY dT mT yT = .ok (y, m, d)) :
    1 ≤ y ∧ y ≤ 9999 ∧ 1 ≤ m ∧ m ≤ 12 ∧ 1 ≤ d ∧ d ≤ 31 := by
  unfold parseDMY at h
  split at h
  · exact absurd h (by simp)
  · split at h
    · exact absurd h (by simp)
    next m' hm' =>
      split at h
      next hyT =>
        split at h
        next hok =>
          injection h with h
          have h1 : digitsVal yT = y := congrArg Prod.fst h
          have h2 : m' = m := congrArg (fun p => p.2.1) h
          have h3 : digitsVal dT = d := congrArg (fun p => p.2.2) h
          have hy4 : digitsVal yT < 10000 := by
            have hv := digitsVal_lt yT hyT.2
            rw [hyT.1] at hv
            norm_num at hv
            omega
          have hmb := monthNum_bounds mT m' hm'
          have hdm := daysInMonth_le (digitsVal yT) m'
          omega
        next => exact absurd h (by simp)
      next => exact absurd h (by simp)

theorem dateutilParse_bounds (s : String) (y m d : Nat)
    (h : dateutilParse s = .ok (y, m, d)) :
    1 ≤ y ∧ y ≤ 9999 ∧ 1 ≤ m ∧ m ≤ 12 ∧ 1 ≤ d ∧ d ≤ 31 := by
  unfold dateutilParse at h
  split at h
  · exact parseDMY_bounds _ _ _ _ _ _ h
  · exact absurd h (by simp)

theorem parseDMY_error (dT mT yT : List Char) (e : PyErr)
    (h : parseDMY dT mT yT = .error e) : e = PyErr.dateParseError := by
  unfold parseDMY at h
  split at h
  · injection h with h; exact h.symm
  · split at h
    · injection h with h; exact h.symm
    · split at h
      · split at h
        · exact absurd h (by simp)
        · injection h with h; exact h.symm
      · injection h with h; exact h.symm

theorem dateutilParse_error (s : String) (e : PyErr)
    (h : dateutilParse s = .error e) : e = PyErr.dateParseError := by
  unfold dateutilParse at h
  split at h
  · exact parseDMY_error _ _ _ _ h
  · injection h with h; exact h.symm

theorem pyInt_error (s : String) (e : PyErr)
    (h : pyInt s = .error e) : e = PyErr.numericParseError := by
  unfold pyInt at h
  split at h <;> split at h <;>
    first
      | (injection h with h; exact h.symm)
      | exact absurd h (by simp)

theorem intsOf_isOkB : ∀ rest : List String,
    isOkB (intsOf rest) = !(rest.any fun c => !(isOkB (pyInt c)))
  | [] => rfl
  | c :: rest => by
      simp only [intsOf, List.any_cons]
      cases hc : pyInt c with
      | error e => simp [Except.bind, bind, isOkB, hc]
      | ok v =>
          cases hr : intsOf rest with
          | error e' =>
              have := intsOf_isOkB rest
              rw [hr] at this
              simp only [Except.bind, bind, hc, hr, isOkB] at *
              simp [← this]
          | ok vs =>
              have := intsOf_isOkB rest
              rw [hr] at this
              simp only [Except.bind, bind, hc, hr, isOkB] at *
              simp [← this]

theorem intsOf_error : ∀ (rest : List String) (e : PyErr),
    intsOf rest = .error e → e = PyErr.numericParseError
  | [], e, h => by simp [intsOf] at h
  | c :: rest, e, h => by
      simp only [intsOf] at h
      cases hc : pyInt c with
      | error e' =>
          rw [hc] at h
          simp only [Except.bind, bind] at h
          injection h with h
          rw [← h]
          exact pyInt_error c e' hc
      | ok v =>
          rw [hc] at h
          simp only [Except.bind, bind] at h
          cases hr : intsOf rest with
          | error e' =>
              rw [hr] at h
              injection h with h
              rw [← h]
              exact intsOf_error rest e' hr
          | ok vs => rw [hr] at h; exact absurd h (by simp)

theorem transformRow_wellTyped (row : List String) (out : List Cell)
    (h : transformRow row = .ok out) : wellTypedRow out := by
  cases row with
  | nil => exact absurd h (by simp [transformRow])
  | cons c0 rest =>
      simp only [transformRow] at h
      cases hd : dateutilParse c0 with
      | error e => rw [hd] at h; exact absurd h (by simp [Except.bind, bind])
      | ok ymd =>
          rw [hd] at h
          cases hi : intsOf rest with
          | error e => rw [hi] at h; exact absurd h (by simp [Except.bind, bind])
          | ok vs =>
              rw [hi] at h
              simp only [Except.bind, bind, Except.ok.injEq] at h
              obtain ⟨y, m, d⟩ := ymd
              obtain ⟨b1, b2, b3, b4, b5, b6⟩ := dateutilParse_bounds c0 y m d hd
              exact ⟨y, m, d, vs, b1, b2, b3, b4, b5, b6, h.symm⟩

theorem transformRow_error (row : List String) (e : PyErr)
    (h : transformRow row = .error e) :
    e = PyErr.indexError ∨ e = PyErr.dateParseError ∨ e = PyErr.numericParseError := by
  cases row with
  | nil =>
      simp only [transformRow] at h
      injection h with h
      exact Or.inl h.symm
  | cons c0 rest =>
      simp only [transformRow] at h
      cases hd : dateutilParse c0 with
      | error e' =>
          rw [hd] at h
          simp only [Except.bind, bind] at h
          injection h with h
          exact Or.inr (Or.inl (h ▸ dateutilParse_error c0 e' hd))
      | ok ymd =>
          rw [hd] at h
          simp only [Except.bind, bind] at h
          cases hi : intsOf rest with
          | error e' =>
              rw [hi] at h
              injection h with h
              exact Or.inr (Or.inr (h ▸ intsOf_error rest e' hi))
          | ok vs => rw [hi] at h; exact absurd h (by simp)

theorem transformRow_isOkB (row : List String) :
    isOkB (transformRow row) = !(row.isEmpty || rowParseFails row) := by
  cases row with
  | nil => rfl
  | cons c0 rest =>
      simp only [transformRow, rowParseFails, List.isEmpty_cons]
      cases hd : dateutilParse c0 with
      | error e => simp [Except.bind, bind, isOkB, hd]
      | ok ymd =>
          cases hi : intsOf rest with
          | error e =>
              have := intsOf_isOkB rest
              rw [hi] at this
              simp only [isOkB] at this
              simp [Except.bind, bind, isOkB, hd, hi, ← this]
          | ok vs =>
              have := intsOf_isOkB rest
              rw [hi] at this
              simp only [isOkB] at this
              simp [Except.bind, bind, isOkB, hd, hi, ← this]

theorem transformRows_ok (rows : List (List String)) (tr : List (List Cell))
    (h : transformRows rows = .ok tr) :
    List.Forall₂ (fun row t => transformRow row = Except.ok t) rows tr := by
  induction rows generalizing tr with
  | nil =>
      simp only [transformRows] at h
      injection h with h
      rw [← h]
      exact List.Forall₂.nil
  | cons row rest ih =>
      simp only [transformRows] at h
      cases hr : transformRow row with
      | error e => rw [hr] at h; exact absurd h (by simp [Except.bind, bind])
      | ok t =>
          rw [hr] at h
          cases hs : transformRows rest with
          | error e => rw [hs] at h; exact absurd h (by simp [Except.bind, bind])
          | ok ts =>
              rw [hs] at h
              simp only [Except.bind, bind, Except.ok.injEq] at h
              rw [← h]
              exact List.Forall₂.cons hr (ih ts hs)

theorem transformRows_isOkB : ∀ rows : List (List String),
    isOkB (transformRows rows) = rows.all (fun row => isOkB (transformRow row))
  | [] => rfl
  | row :: rest => by
      simp only [transformRows, List.all_cons]
      cases hr : transformRow row with
      | error e => simp [Except.bind, bind, isOkB]
      | ok t =>
          cases hs : transformRows rest with
          | error e' =>
              have := transformRows_isOkB rest
              rw [hs] at this
              simp only [isOkB] at this
              simp [Except.bind, bind, isOkB, ← this]
          | ok ts =>
              have := transformRows_isOkB rest
              rw [hs] at this
              simp only [isOkB] at this
              simp [Except.bind, bind, isOkB, ← this]

theorem transformRows_error (rows : List (List String)) (e : PyErr)
    (h : transformRows rows = .error e) :
    e = PyErr.indexError ∨ e = PyErr.dateParseError ∨ e = PyErr.numericParseError := by
  induction rows with
  | nil => simp [transformRows] at h
  | cons row rest ih =>
      simp only [transformRows] at h
      cases hr : transformRow row with
      | error e' =>
          rw [hr] at h
          simp only [Except.bind, bind] at h
          injection h with h
          exact h ▸ transformRow_error row e' hr
      | ok t =>
          rw [hr] at h
          simp only [Except.bind, bind] at h
          cases hs : transformRows rest with
          | error e' =>
              rw [hs] at h
              injection h with h
              subst h
              exact ih hs
          | ok ts => rw [hs] at h; exact absurd h (by simp)

theorem stripRow_map_some : ∀ row : List String,
    stripRow (row.map some) = .ok (row.map stripCell)
  | [] => rfl
  | c :: rest => by
      simp only [List.map_cons, stripRow, stripRow_map_some rest, Except.bind, bind]

theorem stripRow_of_mem_none : ∀ row : List (Option String), none ∈ row →
    stripRow row = .error PyErr.attributeError
  | [], h => absurd h (by simp)
  | none :: _, _ => rfl
  | some c :: rest, h => by
      have hr : none ∈ rest := by
        rcases List.mem_cons.mp h with h1 | h1
        · exact absurd h1 (by simp)
        · exact h1
      simp only [stripRow, stripRow_of_mem_none rest hr, Except.bind, bind]

theorem validate_cons_error (row : List (Option String)) (rest : List (List (Option String)))
    (e : PyErr) (h : validateRow row = .error e) :
    validate (row :: rest) = .error e := by
  simp only [validate, h, Except.bind, bind]

theorem validate_cons_none (row : List (Option String)) (rest : List (List (Option String)))
    (h : validateRow row = .ok none) :
    validate (row :: rest) = validate rest := by
  simp only [validate, h, Except.bind, bind]
  cases validate rest <;> rfl

theorem validate_cons_some (row : List (Option String)) (rest : List (List (Option String)))
    (cs : List String) (h : validateRow row = .ok (some cs)) :
    validate (row :: rest) = Except.map (cs :: ·) (validate rest) := by
  simp only [validate, h, Except.bind, bind]
  cases validate rest <;> rfl

theorem validateRow_header (a b c : String) (rest : List (Option String))
    (hDay : pyIn "Day" a = true) (hStaff : pyIn "New staff" b = true)
    (hStudent : pyIn "New student" c = true) :
    validateRow (some a :: some b :: some c :: rest) = .ok none := by
  simp [validateRow, cellAt, pyInOpt, Except.bind, bind, hDay, hStaff, hStudent]

theorem validateRow_data (a : String) (rest : List String)
    (hDay : pyIn "Day" a = false) :
    validateRow ((a :: rest).map some) = .ok (some ((a :: rest).map stripCell)) := by
  have hs := stripRow_map_some (a :: rest)
  simp only [List.map_cons] at hs ⊢
  simp [validateRow, cellAt, pyInOpt, Except.bind, bind, hDay, hs]

theorem validateRow_wfHeader (row : List String) (h : wfHeaderB row = true) :
    validateRow (row.map some) = .ok none := by
  simp only [wfHeaderB, Bool.and_eq_true, decide_eq_true_eq] at h
  obtain ⟨⟨⟨h3, hDay⟩, hStaff⟩, hStudent⟩ := h
  match row, h3 with
  | a :: b :: c :: rest, _ =>
      simp only [List.getD_cons_zero, List.getD_cons_succ] at hDay hStaff hStudent
      simp only [List.map_cons]
      exact validateRow_header a b c (rest.map some) hDay hStaff hStudent

theorem validateRow_noStaff (a b : String) (rest : List (Option String))
    (hDay : pyIn "Day" a = true) (hStaff : pyIn "New staff" b = false) :
    validateRow (some a :: some b :: rest) = .error .assertionError := by
  simp [validateRow, cellAt, pyInOpt, Except.bind, bind, hDay, hStaff]

theorem validateRow_noStudent (a b c : String) (rest : List (Option String))
    (hDay : pyIn "Day" a = true) (hStaff : pyIn "New staff" b = true)
    (hStudent : pyIn "New student" c = false) :
    validateRow (some a :: some b :: some c :: rest) = .error .assertionError := by
  simp [validateRow, cellAt, pyInOpt, Except.bind, bind, hDay, hStaff, hStudent]

/-- Claim C1 (amended): for a row of at least 3 present string cells, the
Validator raises SchemaMismatch (the `assert` failure) if and only if
cell 0 contains `"Day"` and cell 1 lacks `"New staff"` or cell 2 lacks
`"New student"`; and SchemaMismatch is the only error such a row can
raise.  (As stated the claim is false for rows indexed out of range:
see the counterexample.) -/
theorem claim1_validate_schemaMismatch (row : List String) (h3 : 3 ≤ row.length) :
    (validate [row.map some] = Except.error PyErr.assertionError ↔
      (pyIn "Day" (row.getD 0 "") = true ∧
        (pyIn "New staff" (row.getD 1 "") = false ∨
          pyIn "New student" (row.getD 2 "") = false))) ∧
    (∀ e, validate [row.map some] = Except.error e → e = PyErr.assertionError) := by
  match row, h3 with
  | a :: b :: c :: rest, _ =>
    simp only [List.getD_cons_zero, List.getD_cons_succ, List.map_cons]
    cases hDay : pyIn "Day" a with
    | false =>
        have hv := validateRow_data a (b :: c :: rest) hDay
        simp only [List.map_cons] at hv
        rw [validate_cons_some _ _ _ hv]
        constructor
        · simp [validate, Except.map, hDay]
        · intro e he
          simp [validate, Except.map] at he
    | true =>
        cases hStaff : pyIn "New staff" b with
        | false =>
            rw [validate_cons_error _ _ _ (validateRow_noStaff a b _ hDay hStaff)]
            constructor
            · simp [hDay, hStaff]
            · intro e he
              injection he with he
              exact he.symm
        | true =>
            cases hStudent : pyIn "New student" c with
            | false =>
                rw [validate_cons_error _ _ _
                  (validateRow_noStudent a b c _ hDay hStaff hStudent)]
                constructor
                · simp [hDay, hStaff, hStudent]
                · intro e he
                  injection he with he
                  exact he.symm
            | true =>
                rw [validate_cons_none _ _ (validateRow_header a b c _ hDay hStaff hStudent)]
                constructor
                · simp [validate, hStaff, hStudent]
                · intro e he
                  simp [validate] at he

/-- Claim C1 counterexample: on a zero-cell row `row[0]` raises
`IndexError` — an error the Validator raises although the row's cell 0
does not contain `"Day"` (it has no cell 0 at all), so "in all other
cases no error is raised" fails. -/
theorem claim1_cex :
    validate [([] : List (Option String))] = Except.error PyErr.indexError ∧
      PyErr.indexError ≠ PyErr.assertionError := ⟨rfl, by decide⟩

/-- Witness for the amended claim C1 at a concrete header-like row with a
wrong label. -/
theorem claim1_witness :
    3 ≤ (["Day", "Staff", "Student"] : List String).length ∧
    validate [(["Day", "Staff", "Student"] : List String).map some] =
      Except.error PyErr.assertionError :=
  ⟨by decide,
    (claim1_validate_schemaMismatch ["Day", "Staff", "Student"] (by decide)).1.mpr
      ⟨rfl, Or.inl rfl⟩⟩

/-- Claim C2: on a table whose rows are each either a well-formed header
row or a data row, the Validator succeeds, drops exactly the header rows,
and keeps every other row in order with each cell stripped of one
trailing `*` when present. -/
theorem claim2_validate_cleans (table : List (List String))
    (h : ∀ row ∈ table, wfHeaderB row = true ∨ dataRowB row = true) :
    validate (table.map (List.map some)) =
      Except.ok ((table.filter (fun r => !(pyIn "Day" (r.getD 0 "")))).map
        (List.map stripCell)) := by
  induction table with
  | nil => rfl
  | cons row rest ih =>
      have hrest := fun r hr => h r (List.mem_cons_of_mem _ hr)
      rcases h row (List.mem_cons_self _ _) with hw | hd
      · have hv := validateRow_wfHeader row hw
        have hDay : pyIn "Day" (row.getD 0 "") = true := by
          simp only [wfHeaderB, Bool.and_eq_true] at hw
          exact hw.1.1.2
        simp only [List.map_cons]
        rw [validate_cons_none _ _ hv, ih hrest]
        simp only [List.filter_cons, hDay]
        simp
      · obtain ⟨a, rtl, rfl⟩ : ∃ a rtl, row = a :: rtl := by
          cases row with
          | nil => simp [dataRowB] at hd
          | cons a t => exact ⟨a, t, rfl⟩
        have hDay : pyIn "Day" a = false := by
          simp only [dataRowB, Bool.and_eq_true, Bool.not_eq_true'] at hd
          simpa using hd.2
        have hv := validateRow_data a rtl hDay
        simp only [List.map_cons] at hv ⊢
        rw [validate_cons_some _ _ _ hv, ih hrest]
        simp only [List.filter_cons, List.getD_cons_zero, hDay]
        simp [Except.map]

/-- Witness for claim C2 at the spec's example table. -/
theorem claim2_witness :
    (∀ row ∈ ([["Day", "New staff", "New student"], ["12 Oct 2020", "3*", "5"]] :
        List (List String)), wfHeaderB row = true ∨ dataRowB row = true) ∧
    validate ([["Day", "New staff", "New student"],
        ["12 Oct 2020", "3*", "5"]].map (List.map some)) =
      Except.ok [["12 Oct 2020", "3", "5"]] :=
  ⟨by decide,
    (claim2_validate_cleans
      [["Day", "New staff", "New student"], ["12 Oct 2020", "3*", "5"]]
      (by decide)).trans (by decide)⟩

/-- Claim C5 (amended): a NONEMPTY row of fewer than 3 present string cells
whose cell 0 lacks `"Day"` passes through the Validator with only marker
stripping; the zero-cell case of the claim fails (see counterexample)
because `row[0]` itself raises IndexError. -/
theorem claim5_short_rows_pass (row : List String) (hne : row ≠ [])
    (hlen : row.length < 3) (hDay : pyIn "Day" (row.getD 0 "") = false) :
    validate [row.map some] = Except.ok [row.map stripCell] := by
  obtain ⟨a, rtl, rfl⟩ : ∃ a rtl, row = a :: rtl := by
    cases row with
    | nil => exact absurd rfl hne
    | cons a t => exact ⟨a, t, rfl⟩
  have hDay' : pyIn "Day" a = false := by simpa using hDay
  have hv := validateRow_data a rtl hDay'
  simp only [List.map_cons] at hv ⊢
  rw [validate_cons_some _ _ _ hv]
  rfl

/-- Claim C5 counterexample: the Validator DOES raise on the zero-cell
row, so "including rows with zero cells" is false — such a row never
reaches the Transformer. -/
theorem claim5_cex :
    validate [([] : List (Option String))] = Except.error PyErr.indexError := rfl

/-- Witness for the amended claim C5 at a one-cell row. -/
theorem claim5_witness :
    (["abc*"] : List String) ≠ [] ∧ (["abc*"] : List String).length < 3 ∧
    pyIn "Day" ((["abc*"] : List String).getD 0 "") = false ∧
    validate [(["abc*"] : List String).map some] = Except.ok [["abc"]] :=
  ⟨by decide, by decide, rfl,
    (claim5_short_rows_pass ["abc*"] (by decide) (by decide) rfl).trans (by decide)⟩

theorem validate_absent_fails (raw : List (Option String)) (hmem : none ∈ raw)
    (hhdr : goodHeaderOptB raw = false) : isOkB (validate [raw]) = false := by
  cases raw with
  | nil => simp at hmem
  | cons c0 rest =>
    cases c0 with
    | none =>
        have hv : validateRow (none :: rest) = .error .typeError := by
          simp [validateRow, cellAt, pyInOpt, Except.bind, bind]
        rw [validate_cons_error _ _ _ hv]
        rfl
    | some a =>
        cases hDay : pyIn "Day" a with
        | false =>
            have hs := stripRow_of_mem_none _ hmem
            have hv : validateRow (some a :: rest) = .error .attributeError := by
              simp [validateRow, cellAt, pyInOpt, Except.bind, bind, hDay, hs]
            rw [validate_cons_error _ _ _ hv]
            rfl
        | true =>
            cases rest with
            | nil => simp at hmem
            | cons c1 rest1 =>
              cases c1 with
              | none =>
                  have hv : validateRow (some a :: none :: rest1) = .error .typeError := by
                    simp [validateRow, cellAt, pyInOpt, Except.bind, bind, hDay]
                  rw [validate_cons_error _ _ _ hv]
                  rfl
              | some b =>
                cases hStaff : pyIn "New staff" b with
                | false =>
                    rw [validate_cons_error _ _ _
                      (validateRow_noStaff a b _ hDay hStaff)]
                    rfl
                | true =>
                  cases rest1 with
                  | nil => simp at hmem
                  | cons c2 rest2 =>
                    cases c2 with
                    | none =>
                        have hv : validateRow (some a :: some b :: none :: rest2) =
                            .error .typeError := by
                          simp [validateRow, cellAt, pyInOpt, Except.bind, bind,
                            hDay, hStaff]
                        rw [validate_cons_error _ _ _ hv]
                        rfl
                    | some c =>
                      cases hStudent : pyIn "New student" c with
                      | false =>
                          rw [validate_cons_error _ _ _
                            (validateRow_noStudent a b c _ hDay hStaff hStudent)]
                          rfl
                      | true =>
                          exact absurd hhdr (by
                            simp [goodHeaderOptB, hDay, hStaff, hStudent])

/-- Claim C9 (amended): an extracted row containing an absent cell makes
the Validator raise — absent cell 0 fails the membership test
(TypeError), an absent cell in a stripped row fails the `endswith` check
(AttributeError) — UNLESS the row's first three cells are present and
form a well-formed header, in which case the row is dropped without its
later cells ever being touched (see the counterexample). -/
theorem claim9_absent_cell_fails (row : List Elem)
    (hmem : none ∈ extractRow row)
    (hhdr : goodHeaderOptB (extractRow row) = false) :
    isOkB (validate [extractRow row]) = false :=
  validate_absent_fails (extractRow row) hmem hhdr

/-- Claim C9 counterexample: a well-formed header row with a fourth,
text-less cell extracts with an absent value yet validates without any
error (the row is simply dropped). -/
theorem claim9_cex :
    (none ∈ extractRow [Elem.mk (some "Day"), Elem.mk (some "New staff"),
        Elem.mk (some "New student"), Elem.mk none]) ∧
    validate [extractRow [Elem.mk (some "Day"), Elem.mk (some "New staff"),
        Elem.mk (some "New student"), Elem.mk none]] = Except.ok [] :=
  ⟨by decide, rfl⟩

/-- Witness for the amended claim C9 at a single text-less cell. -/
theorem claim9_witness :
    (none ∈ extractRow [Elem.mk none]) ∧
    goodHeaderOptB (extractRow [Elem.mk none]) = false ∧
    isOkB (validate [extractRow [Elem.mk none]]) = false :=
  ⟨by decide, rfl, claim9_absent_cell_fails [Elem.mk none] (by decide) rfl⟩

theorem transformRows_mem (rows : List (List String)) (tr : List (List Cell))
    (h : transformRows rows = .ok tr) :
    ∀ r ∈ tr, ∃ row ∈ rows, transformRow row = .ok r := by
  induction rows generalizing tr with
  | nil =>
      simp only [transformRows] at h
      injection h with h
      subst h
      intro r hr
      simp at hr
  | cons row rest ih =>
      simp only [transformRows] at h
      cases hr : transformRow row with
      | error e => rw [hr] at h; exact absurd h (by simp [Except.bind, bind])
      | ok t =>
          rw [hr] at h
          cases hs : transformRows rest with
          | error e => rw [hs] at h; exact absurd h (by simp [Except.bind, bind])
          | ok ts =>
              rw [hs] at h
              simp only [Except.bind, bind, Except.ok.injEq] at h
              subst h
              intro r hmem
              rcases List.mem_cons.mp hmem with h1 | h1
              · exact ⟨row, List.mem_cons_self _ _, h1 ▸ hr⟩
              · obtain ⟨row', hrow', hok⟩ := ih ts hs r h1
                exact ⟨row', List.mem_cons_of_mem _ hrow', hok⟩

theorem wellTyped_rowLe_dates (a b : List Cell) (ha : wellTypedRow a) (hb : wellTypedRow b)
    (hle : rowLe a b = true) (hne : rowDate a ≠ rowDate b) :
    isoKey (rowDate a) < isoKey (rowDate b) := by
  obtain ⟨y1, m1, d1, i1, hy1a, hy1b, hm1a, hm1b, hd1a, hd1b, rfl⟩ := ha
  obtain ⟨y2, m2, d2, i2, hy2a, hy2b, hm2a, hm2b, hd2a, hd2b, rfl⟩ := hb
  simp only [rowDate] at hne ⊢
  have hlt : rowLt (Cell.s (isoRender y2 m2 d2) :: List.map Cell.i i2)
      (Cell.s (isoRender y1 m1 d1) :: List.map Cell.i i1) = false := by
    have := hle
    simp only [rowLe, Bool.not_eq_true', Bool.not_eq_false] at this
    exact this
  have h21 : cellLt (Cell.s (isoRender y2 m2 d2)) (Cell.s (isoRender y1 m1 d1)) = false := by
    by_cases hx : cellLt (Cell.s (isoRender y2 m2 d2)) (Cell.s (isoRender y1 m1 d1)) = true
    · rw [rowLt, if_pos hx] at hlt
      exact absurd hlt (by simp)
    · simpa using hx
  have h21' : charsLt (isoRender y2 m2 d2).toList (isoRender y1 m1 d1).toList = false := by
    simpa [cellLt] using h21
  have hneq : (isoRender y1 m1 d1).toList ≠ (isoRender y2 m2 d2).toList := by
    intro hc
    exact hne (congrArg String.mk hc)
  have h12 : charsLt (isoRender y1 m1 d1).toList (isoRender y2 m2 d2).toList = true := by
    by_cases hx : charsLt (isoRender y1 m1 d1).toList (isoRender y2 m2 d2).toList = true
    · exact hx
    · exact absurd (charsLt_connex _ _ (by simpa using hx) h21') hneq
  have hlex := (isoChars_lt_iff y1 m1 d1 y2 m2 d2 (by omega) (by omega) (by omega)
    (by omega) (by omega) (by omega)).mp h12
  rw [isoKey_isoRender y1 m1 d1 (by omega) (by omega) (by omega),
    isoKey_isoRender y2 m2 d2 (by omega) (by omega) (by omega)]
  rcases hlex with h | ⟨he, h⟩
  · omega
  · rcases h with h | ⟨he2, h⟩ <;> omega

/-- Claim C4: whenever the Transformer succeeds its output is sorted
ascending by the rows' natural lexicographic order (date string first,
then the integer cells), and rows with distinct dates appear in
chronological order of their calendar dates. -/
theorem claim4_transform_sorted (rows : List (List String)) (out : List (List Cell))
    (h : transform rows = Except.ok out) :
    List.Pairwise (fun a b => rowLe a b = true) out ∧
    List.Pairwise (fun a b => rowDate a ≠ rowDate b →
      isoKey (rowDate a) < isoKey (rowDate b)) out := by
  unfold transform at h
  cases htr : transformRows rows with
  | error e => rw [htr] at h; exact absurd h (by simp [Except.bind, bind])
  | ok tr =>
      rw [htr] at h
      simp only [Except.bind, bind, Except.ok.injEq] at h
      subst h
      have hsorted : List.Pairwise rowLeR (List.insertionSort rowLeR tr) :=
        List.sorted_insertionSort rowLeR tr
      have hmem : ∀ r ∈ List.insertionSort rowLeR tr, wellTypedRow r := by
        intro r hr
        have hr' : r ∈ tr := (List.perm_insertionSort rowLeR tr).mem_iff.mp hr
        obtain ⟨row, _, hok⟩ := transformRows_mem rows tr htr r hr'
        exact transformRow_wellTyped row r hok
      refine ⟨hsorted, ?_⟩
      exact hsorted.imp_of_mem (fun {x y} hx hy hxy hne =>
        wellTyped_rowLe_dates x y (hmem x hx) (hmem y hy) hxy hne)

/-- Witness for claim C4 at a concrete out-of-order input. -/
theorem claim4_witness :
    transform [["13 Oct 2020", "1", "2"], ["12 Oct 2020", "3", "5"]] =
      Except.ok [[Cell.s "2020-10-12", Cell.i 3, Cell.i 5],
        [Cell.s "2020-10-13", Cell.i 1, Cell.i 2]] ∧
    (List.Pairwise (fun a b => rowLe a b = true)
        [[Cell.s "2020-10-12", Cell.i 3, Cell.i 5],
         [Cell.s "2020-10-13", Cell.i 1, Cell.i 2]] ∧
      List.Pairwise (fun a b => rowDate a ≠ rowDate b →
          isoKey (rowDate a) < isoKey (rowDate b))
        [[Cell.s "2020-10-12", Cell.i 3, Cell.i 5],
         [Cell.s "2020-10-13", Cell.i 1, Cell.i 2]]) :=
  ⟨by decide, claim4_transform_sorted [["13 Oct 2020", "1", "2"], ["12 Oct 2020", "3", "5"]]
    _ (by decide)⟩

/-- Claim C10: whenever the Transformer succeeds, its output is a
permutation of the rowwise transforms of the input: each output row comes
from exactly one input row, nothing is dropped, duplicated or invented,
and the row count is preserved. -/
theorem claim10_transform_perm (rows : List (List String)) (out : List (List Cell))
    (h : transform rows = Except.ok out) :
    ∃ tr, List.Forall₂ (fun row t => transformRow row = Except.ok t) rows tr ∧
      out.Perm tr ∧ out.length = rows.length := by
  unfold transform at h
  cases htr : transformRows rows with
  | error e => rw [htr] at h; exact absurd h (by simp [Except.bind, bind])
  | ok tr =>
      rw [htr] at h
      simp only [Except.bind, bind, Except.ok.injEq] at h
      subst h
      have hf := transformRows_ok rows tr htr
      refine ⟨tr, hf, List.perm_insertionSort rowLeR tr, ?_⟩
      rw [(List.perm_insertionSort rowLeR tr).length_eq, ← hf.length_eq]

/-- Witness for claim C10 at a concrete input. -/
theorem claim10_witness :
    transform [["13 Oct 2020", "1", "2"], ["12 Oct 2020", "3", "5"]] =
      Except.ok [[Cell.s "2020-10-12", Cell.i 3, Cell.i 5],
        [Cell.s "2020-10-13", Cell.i 1, Cell.i 2]] ∧
    ∃ tr, List.Forall₂ (fun row t => transformRow row = Except.ok t)
        [["13 Oct 2020", "1", "2"], ["12 Oct 2020", "3", "5"]] tr ∧
      List.Perm [[Cell.s "2020-10-12", Cell.i 3, Cell.i 5],
        [Cell.s "2020-10-13", Cell.i 1, Cell.i 2]] tr ∧
      ([[Cell.s "2020-10-12", Cell.i 3, Cell.i 5],
        [Cell.s "2020-10-13", Cell.i 1, Cell.i 2]] : List (List Cell)).length =
        ([["13 Oct 2020", "1", "2"], ["12 Oct 2020", "3", "5"]] :
          List (List String)).length :=
  ⟨by decide, claim10_transform_perm [["13 Oct 2020", "1", "2"], ["12 Oct 2020", "3", "5"]]
    _ (by decide)⟩

/-- Claim C6 (amended): the Transformer fails exactly when some row is
empty (`row[0]` raises IndexError — the case the claim as stated misses)
or its cell 0 is unparseable as a date or a later cell is unparseable as
an integer; the only error kinds are those three, and on failure no
dataset is returned at all. -/
theorem claim6_transform_fails_iff (rows : List (List String)) :
    (isOkB (transform rows) = false ↔
      ∃ row ∈ rows, (row.isEmpty || rowParseFails row) = true) ∧
    (∀ e, transform rows = Except.error e →
      e = PyErr.indexError ∨ e = PyErr.dateParseError ∨ e = PyErr.numericParseError) := by
  constructor
  · have hok : isOkB (transform rows) = isOkB (transformRows rows) := by
      unfold transform
      cases transformRows rows <;> simp [Except.bind, bind, isOkB]
    rw [hok, transformRows_isOkB]
    rw [List.all_eq_false]
    constructor
    · rintro ⟨row, hrow, hp⟩
      refine ⟨row, hrow, ?_⟩
      rw [transformRow_isOkB] at hp
      revert hp
      cases row.isEmpty || rowParseFails row <;> simp
    · rintro ⟨row, hrow, hp⟩
      refine ⟨row, hrow, ?_⟩
      rw [transformRow_isOkB]
      revert hp
      cases row.isEmpty || rowParseFails row <;> simp
  · intro e he
    unfold transform at he
    cases htr : transformRows rows with
    | error e' =>
        rw [htr] at he
        simp only [Except.bind, bind] at he
        injection he with he
        subst he
        exact transformRows_error rows e' htr
    | ok tr =>
        rw [htr] at he
        exact absurd he (by simp [Except.bind, bind])

/-- Claim C6 counterexample: the zero-cell row makes the Transformer
raise IndexError although neither of the claim's two parse-failure
conditions holds for it. -/
theorem claim6_cex :
    transform [([] : List String)] = Except.error PyErr.indexError ∧
      rowParseFails ([] : List String) = false ∧
      ([] : List String).isEmpty = true := ⟨by decide, rfl, rfl⟩

/-- Witness for the amended claim C6 at the spec's `"N/A"` example. -/
theorem claim6_witness :
    isOkB (transform [["12 Oct 2020", "N/A"]]) = false :=
  (claim6_transform_fails_iff [["12 Oct 2020", "N/A"]]).1.mpr (by decide)

/-- Claim C3: the spec's concrete example — the Validator drops the
header row and strips the markers, and the Transformer types and renders
the result. -/
theorem claim3_example_pipeline :
    validate ([["Day", "New staff", "New student"], ["12 Oct 2020", "3*", "5"],
        ["13 Oct 2020", "1", "2*"]].map (List.map some)) =
      Except.ok [["12 Oct 2020", "3", "5"], ["13 Oct 2020", "1", "2"]] ∧
    transform [["12 Oct 2020", "3", "5"], ["13 Oct 2020", "1", "2"]] =
      Except.ok [[Cell.s "2020-10-12", Cell.i 3, Cell.i 5],
        [Cell.s "2020-10-13", Cell.i 1, Cell.i 2]] :=
  ⟨by decide, by decide⟩

theorem cellFromJson_toJson (c : Cell) : cellFromJson (cellToJson c) = some c := by
  cases c <;> rfl

theorem cellsFromJson_toJson : ∀ row : List Cell,
    cellsFromJson (row.map cellToJson) = some row
  | [] => rfl
  | c :: rest => by
      simp [cellsFromJson, cellFromJson_toJson, cellsFromJson_toJson rest]

theorem rowFromJson_toJson (row : List Cell) :
    rowFromJson (.arr (row.map cellToJson)) = some row := by
  simpa [rowFromJson] using cellsFromJson_toJson row

theorem rowsFromJson_toJson : ∀ data : List (List Cell),
    rowsFromJson (data.map (fun row => Json.arr (row.map cellToJson))) = some data
  | [] => rfl
  | row :: rest => by
      simp [rowsFromJson, rowFromJson_toJson, rowsFromJson_toJson rest]

/-- Claim C7: serialising a dataset to JSON — a bare array of arrays,
each inner array a date string followed by integers, no wrapping object —
and re-parsing it yields the original dataset. -/
theorem claim7_json_roundtrip (data : List (List Cell)) :
    dataFromJson (dataToJson data) = some data := by
  simpa [dataToJson, dataFromJson] using rowsFromJson_toJson data

/-- Claim C8: the export branching of `main` — a CSV file (fixed header
row, one row per typed row) whenever `--csv` is given, regardless of
`--json`; a JSON file when only `--json` is given; no export file when
neither flag is given. -/
theorem claim8_export_branches (csvFile jsonFile : Option String) (data : List (List Cell)) :
    (∀ p, csvFile = some p →
      exportData csvFile jsonFile data = .csvFile p (csvRows data)) ∧
    (csvFile = none → ∀ p, jsonFile = some p →
      exportData csvFile jsonFile data = .jsonFile p (dataToJson data)) ∧
    (csvFile = none → jsonFile = none →
      exportData csvFile jsonFile data = .noExport) := by
  refine ⟨?_, ?_, ?_⟩
  · intro p hp
    subst hp
    rfl
  · intro hc p hj
    subst hc
    subst hj
    rfl
  · intro hc hj
    subst hc
    subst hj
    rfl

/-- Witness for claim C8: with both flags given, CSV wins. -/
theorem claim8_witness :
    exportData (some "out.csv") (some "out.json")
        [[Cell.s "2020-10-12", Cell.i 3, Cell.i 5]] =
      ExportResult.csvFile "out.csv"
        (csvRows [[Cell.s "2020-10-12", Cell.i 3, Cell.i 5]]) :=
  (claim8_export_branches (some "out.csv") (some "out.json")
    [[Cell.s "2020-10-12", Cell.i 3, Cell.i 5]]).1 "out.csv" rfl
